import Mathlib

/-!
Verification of the ecoflow client library: a shallow embedding of the
request-signing engine, the HTTP API envelope handling, the MQTT login /
credential exchange, the telemetry message handler (JSON and binary paths),
and the per-device statistics map, together with theorems settling the
specification claims about them.

Conventions of the embedding:
  - Go `map[string]interface{}` values are modelled by the inductive type
    `GoValue`; a map is an association list of key/value pairs (a Go map has
    one binding per key; lookup takes the first match).
  - Go `float64` scalars are carried as their canonical decimal rendering
    (the output of strconv.FormatFloat(v, 'f', -1, 64), which is a pure
    function of the float), since none of the claims depend on float
    arithmetic, only on the rendered text.
  - machine integers are modelled as Nat/Int; byte strings as `List Nat`
    with elements below 256.
  - network transport and JSON (un)marshalling are external collaborators:
    functions take the already-decoded body (an `Option` of the decoded
    shape, `none` meaning the unmarshal failed) as input.
-/

/-- Model of a Go `interface{}` value as produced by the JSON decoder or
built by callers of the signing engine: strings, ints, floats (carried as
their canonical rendering), booleans, nested maps and arrays. -/
inductive GoValue where
  | str (s : String)
  | int (n : Int)
  | float (rendered : String)
  | bool (b : Bool)
  | obj (fields : List (String × GoValue))
  | arr (items : List GoValue)

/- Embedding of `processValue` (part_000 lines 128-153): depth-first
flattening of one value under a key path.  Maps descend with `pre ++ "." ++ k`,
arrays with `pre ++ "[" ++ i ++ "]"`, scalars render as `pre ++ "=" ++ text`.
`processFields` and `processItems` are the loop bodies of the map and array
cases. -/
mutual

def processValue (pre : String) : GoValue → List String
  | .obj fields => processFields pre fields
  | .arr items => processItems pre 0 items
  | .str s => [pre ++ "=" ++ s]
  | .int n => [pre ++ "=" ++ toString n]
  | .float rendered => [pre ++ "=" ++ rendered]
  | .bool b => [pre ++ "=" ++ (if b then "true" else "false")]

def processFields (pre : String) : List (String × GoValue) → List String
  | [] => []
  | (k, v) :: rest => processValue (pre ++ "." ++ k) v ++ processFields pre rest

def processItems (pre : String) (i : Nat) : List GoValue → List String
  | [] => []
  | v :: rest => processValue (pre ++ "[" ++ toString i ++ "]") v ++ processItems pre (i + 1) rest

end

/-- The flattened pair list gathered by the loop of `generateQueryParams`
(part_000 lines 116-119): each top-level key is processed with itself as the
key path (no leading dot). -/
def topFlatten (data : List (String × GoValue)) : List String :=
  data.flatMap fun kv => processValue kv.1 kv.2

/-- The flattened pairs after `sort.Strings` (byte-order sort). -/
def sortedPairs (data : List (String × GoValue)) : List String :=
  (topFlatten data).mergeSort

/-- Embedding of `generateQueryParams` (part_000 lines 113-126): flatten all
top-level entries, sort the `key=value` strings, join with `&`. -/
def generateQueryParams (data : List (String × GoValue)) : String :=
  String.intercalate "&" (sortedPairs data)

/- Equivalence of decoded values up to Go map iteration order: scalars must
be identical, arrays elementwise equivalent, and map entry lists are
pointwise equivalent followed by an arbitrary permutation of the entries.
This captures exactly the inputs the determinism claim quantifies over. -/
mutual

inductive GoEquiv : GoValue → GoValue → Prop where
  | str (s : String) : GoEquiv (.str s) (.str s)
  | int (n : Int) : GoEquiv (.int n) (.int n)
  | float (s : String) : GoEquiv (.float s) (.float s)
  | bool (b : Bool) : GoEquiv (.bool b) (.bool b)
  | arr {xs ys : List GoValue} : GoEquivList xs ys → GoEquiv (.arr xs) (.arr ys)
  | obj {xs ys zs : List (String × GoValue)} :
      GoEquivFields xs ys → ys.Perm zs → GoEquiv (.obj xs) (.obj zs)

inductive GoEquivList : List GoValue → List GoValue → Prop where
  | nil : GoEquivList [] []
  | cons {v w : GoValue} {xs ys : List GoValue} :
      GoEquiv v w → GoEquivList xs ys → GoEquivList (v :: xs) (w :: ys)

inductive GoEquivFields : List (String × GoValue) → List (String × GoValue) → Prop where
  | nil : GoEquivFields [] []
  | cons {k : String} {v w : GoValue} {xs ys : List (String × GoValue)} :
      GoEquiv v w → GoEquivFields xs ys → GoEquivFields ((k, v) :: xs) ((k, w) :: ys)

end

/-- Two parameter maps are equal up to mapping iteration order (recursively):
pointwise-equivalent values, then a permutation of the top-level entries. -/
def MapEquiv (d d' : List (String × GoValue)) : Prop :=
  ∃ ys, GoEquivFields d ys ∧ ys.Perm d'

theorem processFields_eq_flatMap (pre : String) (xs : List (String × GoValue)) :
    processFields pre xs = xs.flatMap fun kv => processValue (pre ++ "." ++ kv.1) kv.2 := by
  induction xs with
  | nil => rfl
  | cons kv rest ih => cases kv; simp [processFields, List.flatMap_cons, ih]

mutual

theorem goEquiv_perm {v w : GoValue} (h : GoEquiv v w) (pre : String) :
    (processValue pre v).Perm (processValue pre w) :=
  match h with
  | .str _ => .refl _
  | .int _ => .refl _
  | .float _ => .refl _
  | .bool _ => .refl _
  | .arr hl => goEquivList_perm hl pre 0
  | .obj hf hp => by
      have h1 := goEquivFields_perm hf pre
      have h2 := hp.flatMap_right fun kv => processValue (pre ++ "." ++ kv.1) kv.2
      rw [← processFields_eq_flatMap, ← processFields_eq_flatMap] at h2
      exact h1.trans h2

theorem goEquivList_perm {xs ys : List GoValue} (h : GoEquivList xs ys) (pre : String)
    (i : Nat) : (processItems pre i xs).Perm (processItems pre i ys) :=
  match h with
  | .nil => .refl _
  | .cons hv hrest =>
      ((goEquiv_perm hv _).append (goEquivList_perm hrest pre _))

theorem goEquivFields_perm {xs ys : List (String × GoValue)} (h : GoEquivFields xs ys)
    (pre : String) : (processFields pre xs).Perm (processFields pre ys) :=
  match h with
  | .nil => .refl _
  | .cons hv hrest =>
      ((goEquiv_perm hv _).append (goEquivFields_perm hrest pre))

theorem goEquivFields_top_perm {xs ys : List (String × GoValue)} (h : GoEquivFields xs ys) :
    (xs.flatMap fun kv => processValue kv.1 kv.2).Perm
      (ys.flatMap fun kv => processValue kv.1 kv.2) :=
  match h with
  | .nil => .refl _
  | .cons hv hrest => by
      simp only [List.flatMap_cons]
      exact (goEquiv_perm hv _).append (goEquivFields_top_perm hrest)

end

theorem topFlatten_perm {d d' : List (String × GoValue)} (h : MapEquiv d d') :
    (topFlatten d).Perm (topFlatten d') := by
  obtain ⟨ys, hf, hp⟩ := h
  have h2 : (topFlatten ys).Perm (topFlatten d') := by
    simp only [topFlatten]
    exact hp.flatMap_right fun kv => processValue kv.1 kv.2
  refine List.Perm.trans ?_ h2
  simp only [topFlatten]
  exact goEquivFields_top_perm hf

/-- Claim C1: canonical query-string construction is deterministic — for any
two parameter maps equal up to mapping iteration order (recursively),
`generateQueryParams` produces byte-identical output; moreover the flattened
key=value pairs appear sorted by byte order and are joined with `&`. -/
theorem generateQueryParams_deterministic {d d' : List (String × GoValue)}
    (h : MapEquiv d d') :
    generateQueryParams d = generateQueryParams d' ∧
    List.Sorted (· ≤ ·) (sortedPairs d) ∧
    generateQueryParams d = String.intercalate "&" (sortedPairs d) := by
  have hperm : (sortedPairs d).Perm (sortedPairs d') := by
    simp only [sortedPairs]
    exact ((List.mergeSort_perm _ _).trans (topFlatten_perm h)).trans
      (List.mergeSort_perm _ _).symm
  have hs : List.Sorted (· ≤ ·) (sortedPairs d) := List.sorted_mergeSort' _
  have hs' : List.Sorted (· ≤ ·) (sortedPairs d') := List.sorted_mergeSort' _
  have heq := List.eq_of_perm_of_sorted hperm hs hs'
  exact ⟨by simp only [generateQueryParams, heq], hs, rfl⟩

/-- Witness for C1: a concrete pair of maps that differ only in iteration
order (at top level and inside the nested map) yield the same query string. -/
theorem generateQueryParams_deterministic_witness :
    generateQueryParams
        [("b", .int 1), ("a", .obj [("x", .int 1), ("y", .str "s")])] =
      generateQueryParams
        [("a", .obj [("y", .str "s"), ("x", .int 1)]), ("b", .int 1)] := by
  have hme : MapEquiv
      [("b", .int 1), ("a", .obj [("x", .int 1), ("y", .str "s")])]
      [("a", .obj [("y", .str "s"), ("x", .int 1)]), ("b", .int 1)] := by
    refine ⟨[("b", .int 1), ("a", .obj [("y", .str "s"), ("x", .int 1)])], ?_, ?_⟩
    · exact .cons (.int 1)
        (.cons (.obj (.cons (.int 1) (.cons (.str "s") .nil)) (List.Perm.swap _ _ _)) .nil)
    · exact List.Perm.swap _ _ _
  exact (generateQueryParams_deterministic hme).1

/-! SHA-256 and HMAC, translated from the FIPS-180-4 algorithm that Go's
crypto/sha256 and crypto/hmac implement.  Bytes are `Nat`s below 256, words
are `Nat`s reduced modulo 2^32. -/

/-- Reduce to a 32-bit word. -/
def w32 (n : Nat) : Nat := n % 4294967296

/-- Right rotation of a 32-bit word. -/
def rotr32 (x n : Nat) : Nat := w32 ((x >>> n) ||| (x <<< (32 - n)))

def bigSigma0 (x : Nat) : Nat := rotr32 x 2 ^^^ rotr32 x 13 ^^^ rotr32 x 22
def bigSigma1 (x : Nat) : Nat := rotr32 x 6 ^^^ rotr32 x 11 ^^^ rotr32 x 25
def smallSigma0 (x : Nat) : Nat := rotr32 x 7 ^^^ rotr32 x 18 ^^^ (x >>> 3)
def smallSigma1 (x : Nat) : Nat := rotr32 x 17 ^^^ rotr32 x 19 ^^^ (x >>> 10)

def sha256K : List Nat :=
  [1116352408, 1899447441, 3049323471, 3921009573,
   961987163, 1508970993, 2453635748, 2870763221,
   3624381080, 310598401, 607225278, 1426881987,
   1925078388, 2162078206, 2614888103, 3248222580,
   3835390401, 4022224774, 264347078, 604807628,
   770255983, 1249150122, 1555081692, 1996064986,
   2554220882, 2821834349, 2952996808, 3210313671,
   3336571891, 3584528711, 113926993, 338241895,
   666307205, 773529912, 1294757372, 1396182291,
   1695183700, 1986661051, 2177026350, 2456956037,
   2730485921, 2820302411, 3259730800, 3345764771,
   3516065817, 3600352804, 4094571909, 275423344,
   430227734, 506948616, 659060556, 883997877,
   958139571, 1322822218, 1537002063, 1747873779,
   1955562222, 2024104815, 2227730452, 2361852424,
   2428436474, 2756734187, 3204031479, 3329325298]

/-- The eight working variables of the compression function. -/
structure Hash8 where
  a : Nat
  b : Nat
  c : Nat
  d : Nat
  e : Nat
  f : Nat
  g : Nat
  hh : Nat

def sha256Init : Hash8 :=
  ⟨1779033703, 3144134277, 1013904242, 2773480762,
   1359893119, 2600822924, 528734635, 1541459225⟩

/-- SHA-256 padding: append 0x80, zero bytes to 56 mod 64, then the bit
length as an 8-byte big-endian integer. -/
def padMessage (msg : List Nat) : List Nat :=
  let len := msg.length
  let zeros := (119 - len % 64) % 64
  let bitLen := (8 * len) % 18446744073709551616
  msg ++ [0x80] ++ List.replicate zeros 0 ++
    [(bitLen >>> 56) &&& 255, (bitLen >>> 48) &&& 255, (bitLen >>> 40) &&& 255,
     (bitLen >>> 32) &&& 255, (bitLen >>> 24) &&& 255, (bitLen >>> 16) &&& 255,
     (bitLen >>> 8) &&& 255, bitLen &&& 255]

/-- Pack four big-endian bytes into one word, for each word of a block. -/
def blockWords : List Nat → List Nat
  | b0 :: b1 :: b2 :: b3 :: rest =>
      (((b0 <<< 24) ||| (b1 <<< 16) ||| (b2 <<< 8) ||| b3)) :: blockWords rest
  | _ => []

/-- Extend 16 message words to the 64-entry message schedule. -/
def schedule (ws0 : List Nat) : List Nat :=
  (List.range 48).foldl
    (fun ws _ =>
      let n := ws.length
      ws ++ [w32 (ws.getD (n - 16) 0 + smallSigma0 (ws.getD (n - 15) 0) +
                  ws.getD (n - 7) 0 + smallSigma1 (ws.getD (n - 2) 0))])
    ws0

/-- One round of the SHA-256 compression function. -/
def sha256Round (st : Hash8) (kw : Nat × Nat) : Hash8 :=
  let t1 := w32 (st.hh + bigSigma1 st.e + ((st.e &&& st.f) ^^^ ((st.e ^^^ 4294967295) &&& st.g)) +
                 kw.1 + kw.2)
  let t2 := w32 (bigSigma0 st.a + ((st.a &&& st.b) ^^^ (st.a &&& st.c) ^^^ (st.b &&& st.c)))
  ⟨w32 (t1 + t2), st.a, st.b, st.c, w32 (st.d + t1), st.e, st.f, st.g⟩

/-- Compress one 64-byte block into the running hash state. -/
def compressBlock (st : Hash8) (block : List Nat) : Hash8 :=
  let ws := schedule (blockWords block)
  let r := (sha256K.zip ws).foldl sha256Round st
  ⟨w32 (st.a + r.a), w32 (st.b + r.b), w32 (st.c + r.c), w32 (st.d + r.d),
   w32 (st.e + r.e), w32 (st.f + r.f), w32 (st.g + r.g), w32 (st.hh + r.hh)⟩

/-- Split a padded message into 64-byte blocks (fuel-driven so that the
definition reduces in the kernel). -/
def chunks64 : Nat → List Nat → List (List Nat)
  | 0, _ => []
  | _, [] => []
  | fuel + 1, l => l.take 64 :: chunks64 fuel (l.drop 64)

/-- Serialize one word as four big-endian bytes. -/
def wordBytes (w : Nat) : List Nat :=
  [(w >>> 24) &&& 255, (w >>> 16) &&& 255, (w >>> 8) &&& 255, w &&& 255]

/-- SHA-256 digest (32 bytes) of a byte sequence. -/
def sha256 (msg : List Nat) : List Nat :=
  let padded := padMessage msg
  let final := (chunks64 padded.length padded).foldl compressBlock sha256Init
  wordBytes final.a ++ wordBytes final.b ++ wordBytes final.c ++ wordBytes final.d ++
    wordBytes final.e ++ wordBytes final.f ++ wordBytes final.g ++ wordBytes final.hh

/-- HMAC-SHA256 (RFC 2104) with the 64-byte SHA-256 block size, as Go's
crypto/hmac instantiates it: keys longer than a block are hashed first. -/
def hmacSha256 (key msg : List Nat) : List Nat :=
  let k0 := if 64 < key.length then sha256 key else key
  let kp := k0 ++ List.replicate (64 - k0.length) 0
  sha256 ((kp.map fun b => b ^^^ 0x5c) ++ sha256 ((kp.map fun b => b ^^^ 0x36) ++ msg))

/-- UTF-8 encoding of one character, byte for byte what Go's `[]byte(s)`
produces. -/
def utf8Bytes (c : Char) : List Nat :=
  let n := c.toNat
  if n < 0x80 then [n]
  else if n < 0x800 then
    [0xC0 ||| (n >>> 6), 0x80 ||| (n &&& 0x3F)]
  else if n < 0x10000 then
    [0xE0 ||| (n >>> 12), 0x80 ||| ((n >>> 6) &&& 0x3F), 0x80 ||| (n &&& 0x3F)]
  else
    [0xF0 ||| (n >>> 18), 0x80 ||| ((n >>> 12) &&& 0x3F),
     0x80 ||| ((n >>> 6) &&& 0x3F), 0x80 ||| (n &&& 0x3F)]

/-- The bytes of a Go string (UTF-8). -/
def strBytes (s : String) : List Nat := s.data.flatMap utf8Bytes

/-- One lowercase hexadecimal digit, as encoding/hex renders it. -/
def hexDigit (n : Nat) : Char :=
  if n < 10 then Char.ofNat (48 + n) else Char.ofNat (87 + n)

/-- Lowercase hexadecimal rendering of a byte sequence, as Go's
`hex.EncodeToString`. -/
def hexEncode (bs : List Nat) : String :=
  ⟨bs.flatMap fun b => [hexDigit (b / 16), hexDigit (b % 16)]⟩

/-- Embedding of `encryptHmacSHA256` (part_000 lines 160-165): lowercase-hex
HMAC-SHA256 of the message keyed by the secret. -/
def encryptHmacSHA256 (message secret : String) : String :=
  hexEncode (hmacSha256 (strBytes secret) (strBytes message))

set_option maxRecDepth 10000

/-- RFC 4231 test case 2, checking that the embedded HMAC-SHA256 is the real
algorithm (same value Go's crypto/hmac with crypto/sha256 produces). -/
theorem hmacSha256_rfc4231_case2 :
    encryptHmacSHA256 "what do ya want for nothing?" "Jefe" =
      "5bdcc146bf60754e6a042426089575c75a003f089d2739839dec58b964ec3843" := by
  decide

/-- Header names (part_000 lines 51-56). -/
def accessKeyHeader : String := "accessKey"

def nonceHeader : String := "nonce"

def timestampHeader : String := "timestamp"

/-- The fields of `HttpRequest` (part_000 lines 77-85) that the signing
engine reads; transport fields (client, method, uri) are external. -/
structure HttpRequest where
  requestParameters : List (String × GoValue)
  accessKey : String
  secretKey : String

/-- Embedding of `signParameters` (part_000 lines 87-93). -/
structure signParameters where
  nonce : String
  timestamp : String
  accessKey : String
  sign : String
  queryParams : String

/-- Embedding of `getKeyValueString` (part_000 lines 177-186). -/
def HttpRequest.getKeyValueString (r : HttpRequest)
    (queryString nonce timestamp : String) : String :=
  let keyValueString := accessKeyHeader ++ "=" ++ r.accessKey ++ "&" ++
    nonceHeader ++ "=" ++ nonce ++ "&" ++ timestampHeader ++ "=" ++ timestamp
  if queryString ≠ "" then queryString ++ "&" ++ keyValueString else keyValueString

/-- Embedding of `generateSign` (part_000 lines 155-158). -/
def HttpRequest.generateSign (r : HttpRequest)
    (queryString nonce timestamp : String) : String :=
  encryptHmacSHA256 (r.getKeyValueString queryString nonce timestamp) r.secretKey

/-- Embedding of `generateSignParameters` (part_000 lines 100-111), with the
random nonce and the clock timestamp passed in as inputs. -/
def HttpRequest.generateSignParametersWith (r : HttpRequest)
    (nonce timestamp : String) : signParameters :=
  let queryParams := generateQueryParams r.requestParameters
  { queryParams := queryParams
    nonce := nonce
    timestamp := timestamp
    accessKey := r.accessKey
    sign := r.generateSign queryParams nonce timestamp }

/-- Modelled from the spec: the signing base string, worded as in the spec —
`canonicalQueryString&accessKey=<ak>&nonce=<n>&timestamp=<t>` when the
canonical query string is non-empty, and the accessKey/nonce/timestamp
triple alone when it is empty. -/
def specSigningBase (accessKey queryString nonce timestamp : String) : String :=
  if queryString = "" then
    "accessKey=" ++ accessKey ++ "&nonce=" ++ nonce ++ "&timestamp=" ++ timestamp
  else
    queryString ++ "&accessKey=" ++ accessKey ++ "&nonce=" ++ nonce ++
      "&timestamp=" ++ timestamp

/-- The signing base built by the source equals the spec's wording of it. -/
theorem getKeyValueString_eq_spec (r : HttpRequest) (qs n t : String) :
    r.getKeyValueString qs n t = specSigningBase r.accessKey qs n t := by
  by_cases h : qs = "" <;>
    simp only [HttpRequest.getKeyValueString, specSigningBase, h,
      accessKeyHeader, nonceHeader, timestampHeader, if_true, if_false,
      ite_true, ite_false, ne_eq, not_true_eq_false, not_false_eq_true,
      String.append_assoc] <;> rfl

theorem wordBytes_lt {b w : Nat} (h : b ∈ wordBytes w) : b < 256 := by
  simp only [wordBytes, List.mem_cons, List.not_mem_nil, or_false] at h
  have h255 : ∀ x : Nat, x &&& 255 < 256 := fun x =>
    Nat.lt_succ_of_le (Nat.and_le_right)
  rcases h with h | h | h | h <;> exact h ▸ h255 _

theorem sha256_lt {b : Nat} (msg : List Nat) (h : b ∈ sha256 msg) : b < 256 := by
  simp only [sha256, List.mem_append] at h
  rcases h with ((((((h | h) | h) | h) | h) | h) | h) | h <;> exact wordBytes_lt h

theorem hexDigit_mem {n : Nat} (h : n < 16) :
    hexDigit n ∈ "0123456789abcdef".data := by
  interval_cases n <;> decide

theorem hexEncode_mem {bs : List Nat} (hb : ∀ b ∈ bs, b < 256) :
    ∀ c ∈ (hexEncode bs).data, c ∈ "0123456789abcdef".data := by
  intro c hc
  simp only [hexEncode, List.mem_flatMap, List.mem_cons, List.not_mem_nil,
    or_false] at hc
  obtain ⟨b, hbmem, hc⟩ := hc
  have hlt := hb b hbmem
  have hdiv : b / 16 < 16 := by omega
  have hmod : b % 16 < 16 := Nat.mod_lt _ (by norm_num)
  rcases hc with hc | hc <;> exact hc ▸ hexDigit_mem (by assumption)

theorem hmacSha256_lt {b : Nat} (key msg : List Nat) (h : b ∈ hmacSha256 key msg) :
    b < 256 := by
  simp only [hmacSha256] at h
  exact sha256_lt _ h

/-- Claim C2: for every generated signed request (any parameters, keys,
nonce and timestamp), the emitted signature equals the lowercase-hex
HMAC-SHA256, keyed by the secret key, of the signing base string that the
spec describes — recomputed here from the emitted query string, nonce and
timestamp fields, so the signature is verifiable by recomputation; and every
character of the signature is a lowercase hexadecimal digit. -/
theorem generateSign_verifiable (r : HttpRequest) (nonce timestamp : String) :
    (r.generateSignParametersWith nonce timestamp).sign =
      encryptHmacSHA256
        (specSigningBase r.accessKey
          (r.generateSignParametersWith nonce timestamp).queryParams
          (r.generateSignParametersWith nonce timestamp).nonce
          (r.generateSignParametersWith nonce timestamp).timestamp)
        r.secretKey ∧
    ∀ c ∈ (r.generateSignParametersWith nonce timestamp).sign.data,
      c ∈ "0123456789abcdef".data := by
  constructor
  · simp only [HttpRequest.generateSignParametersWith, HttpRequest.generateSign,
      getKeyValueString_eq_spec]
  · intro c hc
    exact hexEncode_mem (fun b hb => hmacSha256_lt _ _ hb) c hc

/-- Embedding of `DeviceInfo` (part_000 lines 72-75). -/
structure DeviceInfo where
  SN : String
  Online : Int

/-- Embedding of `DeviceListResponse` (part_000 lines 64-70), restricted to
the fields the code reads. -/
structure DeviceListResponse where
  Code : String
  Message : String
  Devices : List DeviceInfo

/-- Embedding of `GetDeviceList` (part_000 lines 228-245) from the decoded
response body on (JSON decoding is an external collaborator; `none` means
the unmarshal failed).  Returns the Go result pair (response, error). -/
def GetDeviceList (unmarshal : Option DeviceListResponse) :
    Option DeviceListResponse × Option String :=
  match unmarshal with
  | none => (none, some "unmarshal error")
  | some d =>
    if d.Code ≠ "0" then
      (some d, some ("can't get device list, error code: " ++ d.Code ++
        ", error message: " ++ d.Message))
    else (some d, none)

/-- Claim C7: on a decoded envelope with code "0" `GetDeviceList` returns the
device list and no error; on any other code it returns an error whose text
contains the vendor message verbatim. -/
theorem getDeviceList_envelope (d : DeviceListResponse) :
    (d.Code = "0" → GetDeviceList (some d) = (some d, none)) ∧
    (d.Code ≠ "0" → ∃ e, (GetDeviceList (some d)).2 = some e ∧
      ∃ pre post, e = pre ++ d.Message ++ post) := by
  constructor
  · intro h
    simp [GetDeviceList, h]
  · intro h
    refine ⟨"can't get device list, error code: " ++ d.Code ++
      ", error message: " ++ d.Message, by simp [GetDeviceList, h],
      "can't get device list, error code: " ++ d.Code ++ ", error message: ",
      "", ?_⟩
    simp [String.append_assoc]

/-- Witness for C7 at the spec's two example envelopes. -/
theorem getDeviceList_envelope_witness :
    GetDeviceList (some ⟨"0", "Success", [⟨"ABC", 1⟩]⟩) =
      (some ⟨"0", "Success", [⟨"ABC", 1⟩]⟩, none) ∧
    ∃ e, (GetDeviceList (some ⟨"1", "bad key", []⟩)).2 = some e ∧
      ∃ pre post, e = pre ++ "bad key" ++ post := by
  constructor
  · exact (getDeviceList_envelope ⟨"0", "Success", [⟨"ABC", 1⟩]⟩).1 rfl
  · exact (getDeviceList_envelope ⟨"1", "bad key", []⟩).2 (by decide)

/-- Go map lookup on the association-list model of a decoded JSON object. -/
def lookupField (fields : List (String × GoValue)) (k : String) : Option GoValue :=
  (fields.find? fun kv => kv.1 == k).map fun kv => kv.2

/-- Embedding of `GetDeviceInfo` (part_000 lines 312-341) from the decoded
response body on (`none` = transport failure or malformed body).  The code
requires the envelope's `code` to be the string "0" (a missing or non-string
code renders as the empty string in the error), then selects the `specific`
top-level key if non-empty. -/
def GetDeviceInfo (unmarshal : Option (List (String × GoValue)))
    (specific : String) : Except String (List (String × GoValue)) :=
  match unmarshal with
  | none => .error "unmarshal error"
  | some jsonData =>
    let codeOk : String × Bool :=
      match lookupField jsonData "code" with
      | some (.str c) => (c, true)
      | _ => ("", false)
    if ¬codeOk.2 ∨ codeOk.1 ≠ "0" then
      .error ("can't get parameters, error code " ++ codeOk.1)
    else if specific ≠ "" then
      match lookupField jsonData specific with
      | some (.obj tmpMap) => .ok tmpMap
      | _ => .error "response is not valid, can't process it"
    else .ok jsonData

/-- Embedding of `GetDeviceAllParameters` (part_000 lines 306-308): it
delegates to `GetDeviceInfo` with the fixed selector "data"; its own
`specific` argument is never read. -/
def GetDeviceAllParameters (unmarshal : Option (List (String × GoValue)))
    (_specific : String) : Except String (List (String × GoValue)) :=
  GetDeviceInfo unmarshal "data"

/-- Claim C8: on a success envelope (string code "0"), `GetDeviceInfo` with a
non-empty selector returns the mapping stored at that top-level key, fails
with the invalid-response error when the key is absent or not a mapping, and
with an empty selector returns the full decoded envelope. -/
theorem getDeviceInfo_selector (jsonData : List (String × GoValue))
    (specific : String)
    (hc : lookupField jsonData "code" = some (.str "0")) :
    (specific ≠ "" →
      (∀ m, lookupField jsonData specific = some (.obj m) →
        GetDeviceInfo (some jsonData) specific = .ok m) ∧
      ((∀ m, lookupField jsonData specific ≠ some (.obj m)) →
        GetDeviceInfo (some jsonData) specific =
          .error "response is not valid, can't process it")) ∧
    (specific = "" → GetDeviceInfo (some jsonData) specific = .ok jsonData) := by
  constructor
  · intro hs
    constructor
    · intro m hm
      simp [GetDeviceInfo, hc, hs, hm]
    · intro hnone
      rcases hsel : lookupField jsonData specific with _ | v
      · simp [GetDeviceInfo, hc, hs, hsel]
      · cases v with
        | obj m => exact absurd hsel (hnone m)
        | str s => simp [GetDeviceInfo, hc, hs, hsel]
        | int n => simp [GetDeviceInfo, hc, hs, hsel]
        | float s => simp [GetDeviceInfo, hc, hs, hsel]
        | bool b => simp [GetDeviceInfo, hc, hs, hsel]
        | arr xs => simp [GetDeviceInfo, hc, hs, hsel]
  · intro hs
    simp [GetDeviceInfo, hc, hs]

/-- Witness for C8 at a concrete success envelope: selector "data" yields
the nested mapping, selector "missing" yields the invalid-response error,
and the empty selector yields the whole envelope. -/
theorem getDeviceInfo_selector_witness :
    GetDeviceInfo (some [("code", .str "0"), ("data", .obj [("x", .int 1)])])
        "data" = .ok [("x", .int 1)] ∧
    GetDeviceInfo (some [("code", .str "0"), ("data", .obj [("x", .int 1)])])
        "missing" = .error "response is not valid, can't process it" ∧
    GetDeviceInfo (some [("code", .str "0"), ("data", .obj [("x", .int 1)])])
        "" = .ok [("code", .str "0"), ("data", .obj [("x", .int 1)])] := by
  refine ⟨?_, ?_, ?_⟩
  · exact ((getDeviceInfo_selector
      [("code", .str "0"), ("data", .obj [("x", .int 1)])] "data"
      rfl).1 (by decide)).1 _ rfl
  · exact ((getDeviceInfo_selector
      [("code", .str "0"), ("data", .obj [("x", .int 1)])] "missing"
      rfl).1 (by decide)).2 (fun m => by simp [lookupField])
  · exact (getDeviceInfo_selector
      [("code", .str "0"), ("data", .obj [("x", .int 1)])] ""
      rfl).2 rfl

/-- Claim C10: `GetDeviceAllParameters` ignores its selector argument and
returns exactly `GetDeviceInfo` applied with selector "data"; consequently
whenever it succeeds, the returned mapping is the one stored under the
envelope's top-level "data" key — never the full envelope, never another
key. -/
theorem getDeviceAllParameters_ignores_selector
    (unmarshal : Option (List (String × GoValue))) (specific : String) :
    GetDeviceAllParameters unmarshal specific = GetDeviceInfo unmarshal "data" ∧
    (∀ d m, unmarshal = some d →
      GetDeviceAllParameters unmarshal specific = .ok m →
      lookupField d "data" = some (.obj m)) := by
  refine ⟨rfl, ?_⟩
  intro d m hd hok
  subst hd
  simp only [GetDeviceAllParameters, GetDeviceInfo] at hok
  split at hok
  · cases hok
  · split at hok
    · split at hok
      · rename_i heq
        cases hok
        exact heq
      · cases hok
    · simp at *

/-- The fields of the MQTT login envelope that the exchange reads
(mqtt_ecoflow.go lines 58-79): envelope code and message, plus
`data.user.userId` and `data.token`. -/
structure MqttLoginResponse where
  Code : String
  Message : String
  UserId : String
  Token : String

/-- Embedding of `MqttConnectionConfig` (mqtt_ecoflow.go lines 49-56). -/
structure MqttConnectionConfig where
  CertificateAccount : String
  CertificatePassword : String
  Url : String
  Port : String
  Protocol : String
  UserId : String

/-- Embedding of `MqttCredentialsResponse` (mqtt_ecoflow.go lines 81-85). -/
structure MqttCredentialsResponse where
  Code : String
  Message : String
  Data : MqttConnectionConfig

/-- Embedding of `getLoginResponse` (mqtt_ecoflow.go lines 163-201) from the
decoded response body on (`none` = transport failure or malformed body).
After a successful unmarshal the function returns the parsed envelope
directly: the envelope's `code` field is never inspected. -/
def getLoginResponse (unmarshal : Option MqttLoginResponse) :
    Except String MqttLoginResponse :=
  match unmarshal with
  | none => .error "login request or unmarshal failed"
  | some r => .ok r

/-- Embedding of `getMqttCredentials` (mqtt_ecoflow.go lines 117-161):
whatever envelope the login step returned, its token becomes the bearer of
the certification request and its userId is stamped into the returned
connection config.  The first component is the Authorization header of the
certification request when one is issued; the certification response arrives
decoded (`none` = failure). -/
def getMqttCredentials (loginUnmarshal : Option MqttLoginResponse)
    (certUnmarshal : Option MqttCredentialsResponse) :
    Option String × Except String MqttConnectionConfig :=
  match getLoginResponse loginUnmarshal with
  | .error e => (none, .error e)
  | .ok login =>
    let bearer := "Bearer " ++ login.Token
    match certUnmarshal with
    | none => (some bearer, .error "certification request or unmarshal failed")
    | some mqttConn =>
      (some bearer, .ok { mqttConn.Data with UserId := login.UserId })

/-- Counterexample to claim C3: a login envelope whose code is "1" (not "0")
is returned by `getLoginResponse` as success, and the credential exchange
proceeds, using the rejected login's session token as the bearer and handing
the resulting connection config to the caller as success. -/
theorem getLoginResponse_ignores_code :
    (⟨"1", "password invalid", "u1", "tok"⟩ : MqttLoginResponse).Code ≠ "0" ∧
    getLoginResponse (some ⟨"1", "password invalid", "u1", "tok"⟩) =
      .ok ⟨"1", "password invalid", "u1", "tok"⟩ ∧
    getMqttCredentials (some ⟨"1", "password invalid", "u1", "tok"⟩)
        (some ⟨"0", "ok", ⟨"acc", "pw", "mqtt.host", "8883", "mqtts", ""⟩⟩) =
      (some "Bearer tok", .ok ⟨"acc", "pw", "mqtt.host", "8883", "mqtts", "u1"⟩) := by
  exact ⟨by decide, rfl, rfl⟩

/-- Amended claim C3 (theorem): the login step fails only when no envelope
can be decoded at all; every decoded envelope — whatever its `code` — is
returned as success, so a rejected login is not converted into an
authentication error and its token flows on into the credential exchange. -/
theorem getLoginResponse_amended (r : MqttLoginResponse)
    (cert : Option MqttCredentialsResponse) :
    getLoginResponse (some r) = .ok r ∧
    getLoginResponse none = .error "login request or unmarshal failed" ∧
    (getMqttCredentials (some r) cert).1 = some ("Bearer " ++ r.Token) := by
  refine ⟨rfl, rfl, ?_⟩
  cases cert <;> rfl

/-- Splitting a character list at every occurrence of a separator character,
keeping empty segments — the behavior of Go's `strings.Split` for the
single-character separator used on topics. -/
def splitOnChar (sep : Char) (cs : List Char) : List (List Char) :=
  cs.foldr
    (fun c acc =>
      match acc with
      | [] => [[c]]
      | a :: rest => if c = sep then [] :: a :: rest else (c :: a) :: rest)
    [[]]

/-- Embedding of `getSnFromTopic` (protobuf.go lines 202-205): the trailing
path segment of the topic. -/
def getSnFromTopic (topic : String) : String :=
  ⟨(splitOnChar '/' topic.data).getLastD []⟩

/-- The metadata injection of the JSON path (protobuf.go lines 168-173):
add `serial_number` and then `timestamp` entries when absent. -/
def injectMeta (serialNumber : String) (now : GoValue)
    (d : List (String × GoValue)) : List (String × GoValue) :=
  let d1 := match lookupField d "serial_number" with
    | some _ => d
    | none => d ++ [("serial_number", .str serialNumber)]
  match lookupField d1 "timestamp" with
  | some _ => d1
  | none => d1 ++ [("timestamp", now)]

/-- Result of the JSON branch: whether the unguarded type assertion
`data["params"].(map[string]interface{})` panicked, and the (serial, fields)
invocations of the `Callback` collaborator. -/
structure JsonHandleResult where
  panicked : Bool
  records : List (String × List (String × GoValue))

/-- Embedding of the JSON branch of `MessageHandler` (protobuf.go lines
154-177), with debug-level logging off (the debug-only block at lines
158-164 performs logging only).  A `params` entry whose value is not a JSON
object makes the type assertion at line 166 panic: modelled as
`panicked := true` with no record delivered. -/
def handleJsonObject (serialNumber : String) (now : GoValue)
    (data0 : List (String × GoValue)) : JsonHandleResult :=
  match lookupField data0 "params" with
  | some (.obj p) =>
    { panicked := false
      records := [(serialNumber, injectMeta serialNumber now p)] }
  | some _ => { panicked := true, records := [] }
  | none =>
    { panicked := false
      records := [(serialNumber, injectMeta serialNumber now data0)] }

/-- Modelled from the spec: the decoded payloads of the vendor's binary
schema (the `InverterHeartbeat` message and the `PowerPack` sub-records) are
generated protobuf code outside src/; the spec treats them as opaque decoded
field sets, so they are carried as field mappings. -/
inductive DecodedObject where
  | heartbeat (fields : List (String × GoValue))
  | powerStream (fields : List (String × GoValue))

/-- Embedding of `Entry` (protobuf.go lines 37-40). -/
structure Entry where
  object : DecodedObject
  serialNumber : String

/-- Modelled from the spec: the outer binary envelope (`SendHeaderMsg`)
carries a numeric command id and an inner payload. -/
structure HeaderMsg where
  cmdId : Nat
  pdata : List Nat

/-- Modelled from the spec: the three binary-schema decoders
(`proto.Unmarshal` into `SendHeaderMsg`, `InverterHeartbeat`, `PowerPack`)
are generated code outside src/, treated as opaque total decoders that
return `none` on a parse failure. -/
structure BinaryCodec where
  parseHeader : List Nat → Option HeaderMsg
  parseHeartbeat : List Nat → Option (List (String × GoValue))
  parsePowerPack : List Nat → Option (List (List (String × GoValue)))

/-- Embedding of `DisplayPayload` (protobuf.go lines 59-115): the entries
handed to `caller.CallHandler`, plus the boolean the function returns
(false only for an unrecognized command id).  A header or inner-payload
parse failure is logged and yields no entry. -/
def DisplayPayload (codec : BinaryCodec) (sn : String) (payload : List Nat) :
    List Entry × Bool :=
  match codec.parseHeader payload with
  | none => ([], true)
  | some platform =>
    match platform.cmdId with
    | 1 =>
      match codec.parseHeartbeat platform.pdata with
      | none => ([], true)
      | some ih => ([⟨.heartbeat ih, sn⟩], true)
    | 32 =>
      match codec.parsePowerPack platform.pdata with
      | none => ([], true)
      | some pp => (pp.map fun p => ⟨.powerStream p, sn⟩, true)
    | _ => ([], false)

/-- Model of Go's `bytes.Index`: the index of the first occurrence of `sub`
in `l`, or -1 when there is none (an empty `sub` occurs at index 0). -/
def bytesIndex (l sub : List Nat) : Int :=
  match (List.range (l.length + 1)).find? (fun i => decide (sub <+: l.drop i)) with
  | some i => (i : Int)
  | none => -1

/-- Go slice `l[s:e]`. -/
def goSlice (l : List Nat) (s e : Nat) : List Nat := (l.take e).drop s

/-- Embedding of the binary branch of `MessageHandler` (protobuf.go lines
179-198): cut the payload just after the first occurrence of the serial's
bytes, decode that frame, and — when bytes remain past the first marker —
cut again after the next occurrence and decode the second frame. -/
def messageHandlerBinary (codec : BinaryCodec) (sn : String)
    (payload : List Nat) : List Entry :=
  let snB := strBytes sn
  let index := bytesIndex payload snB
  let end1 := if index ≠ -1 then index.toNat + snB.length else payload.length
  let first := (DisplayPayload codec sn (goSlice payload 0 end1)).1
  if (payload.length : Int) > index + snB.length then
    let index2 := bytesIndex (payload.drop end1) snB
    let end2 := if index2 ≠ -1 then end1 + index2.toNat + snB.length
      else payload.length
    first ++ (DisplayPayload codec sn (goSlice payload end1 end2)).1
  else first

/-- Everything one `MessageHandler` invocation delivers. -/
structure HandlerOutcome where
  panicked : Bool
  jsonRecords : List (String × List (String × GoValue))
  binaryEntries : List Entry
  binaryAttempted : Bool

/-- Embedding of `MessageHandler` (protobuf.go lines 129-199) after the
statistics update: `parsed` is the result of `json.Unmarshal` on the payload
(an external collaborator; `some` = the payload decodes as a JSON object),
`now` the receipt time.  On JSON success the handler returns without
touching the binary path; on failure it runs the binary framing. -/
def MessageHandler (codec : BinaryCodec) (topic : String) (now : GoValue)
    (parsed : Option (List (String × GoValue))) (payload : List Nat) :
    HandlerOutcome :=
  let serialNumber := getSnFromTopic topic
  match parsed with
  | some data0 =>
    let r := handleJsonObject serialNumber now data0
    { panicked := r.panicked, jsonRecords := r.records,
      binaryEntries := [], binaryAttempted := false }
  | none =>
    { panicked := false, jsonRecords := [],
      binaryEntries := messageHandlerBinary codec serialNumber payload,
      binaryAttempted := true }

theorem lookupField_append (d e : List (String × GoValue)) (k : String) :
    lookupField (d ++ e) k =
      match lookupField d k with
      | some v => some v
      | none => lookupField e k := by
  induction d with
  | nil => simp [lookupField]
  | cons kv rest ih =>
    by_cases h : kv.1 == k
    · simp [lookupField, List.find?_cons, h]
    · simp [lookupField, List.find?_cons, h] at ih ⊢
      exact ih

theorem lookupField_singleton (k : String) (v : GoValue) :
    lookupField [(k, v)] k = some v := by
  simp [lookupField, List.find?_cons]

theorem injectMeta_has_serial (sn : String) (now : GoValue)
    (d : List (String × GoValue)) :
    lookupField (injectMeta sn now d) "serial_number" ≠ none := by
  unfold injectMeta
  rcases h1 : lookupField d "serial_number" with _ | v
  · simp only [h1]
    have h2 : lookupField (d ++ [("serial_number", GoValue.str sn)])
        "serial_number" = some (.str sn) := by
      rw [lookupField_append, h1, lookupField_singleton]
    rcases h3 : lookupField (d ++ [("serial_number", GoValue.str sn)])
        "timestamp" with _ | w
    · simp only [h3, lookupField_append, h2]
      simp
    · simp only [h3, h2]
      simp
  · simp only [h1]
    rcases h3 : lookupField d "timestamp" with _ | w
    · simp only [h3, lookupField_append, h1]
      simp
    · simp only [h3, h1]
      simp

theorem injectMeta_has_timestamp (sn : String) (now : GoValue)
    (d : List (String × GoValue)) :
    lookupField (injectMeta sn now d) "timestamp" ≠ none := by
  unfold injectMeta
  rcases h1 : lookupField d "serial_number" with _ | v <;> simp only [h1]
  · rcases h3 : lookupField (d ++ [("serial_number", GoValue.str sn)])
        "timestamp" with _ | w <;> simp only [h3]
    · rw [lookupField_append, h3, lookupField_singleton]
      simp
    · simp [h3]
  · rcases h3 : lookupField d "timestamp" with _ | w <;> simp only [h3]
    · rw [lookupField_append, h3, lookupField_singleton]
      simp
    · simp [h3]

/-- Claim C4: when the payload decodes as a JSON object (and a `params`
entry, if present, is itself an object — the case the claim describes), the
handler stays on the JSON path: no binary decode is attempted, no panic
occurs, exactly one record is delivered to the callback, its serial is the
topic's trailing segment, its fields are the promoted `params` mapping (or
the whole object when `params` is absent) with `serial_number` and
`timestamp` injected when absent. -/
theorem messageHandler_json_path (codec : BinaryCodec) (topic : String)
    (now : GoValue) (data0 : List (String × GoValue)) (payload : List Nat)
    (hp : ∀ v, lookupField data0 "params" = some v → ∃ p, v = GoValue.obj p) :
    (MessageHandler codec topic now (some data0) payload).binaryAttempted = false ∧
    (MessageHandler codec topic now (some data0) payload).binaryEntries = [] ∧
    (MessageHandler codec topic now (some data0) payload).panicked = false ∧
    (MessageHandler codec topic now (some data0) payload).jsonRecords.length = 1 ∧
    (∀ p, lookupField data0 "params" = some (.obj p) →
      (MessageHandler codec topic now (some data0) payload).jsonRecords =
        [(getSnFromTopic topic, injectMeta (getSnFromTopic topic) now p)]) ∧
    (lookupField data0 "params" = none →
      (MessageHandler codec topic now (some data0) payload).jsonRecords =
        [(getSnFromTopic topic, injectMeta (getSnFromTopic topic) now data0)]) ∧
    (∀ sn fields,
      (MessageHandler codec topic now (some data0) payload).jsonRecords =
        [(sn, fields)] →
      sn = getSnFromTopic topic ∧
      lookupField fields "serial_number" ≠ none ∧
      lookupField fields "timestamp" ≠ none) := by
  rcases hcase : lookupField data0 "params" with _ | v
  · have hM : MessageHandler codec topic now (some data0) payload =
        { panicked := false
          jsonRecords :=
            [(getSnFromTopic topic, injectMeta (getSnFromTopic topic) now data0)]
          binaryEntries := [], binaryAttempted := false } := by
      simp only [MessageHandler, handleJsonObject, hcase]
    rw [hM]
    refine ⟨rfl, rfl, rfl, rfl, ?_, ?_, ?_⟩
    · intro p hps
      exact Option.noConfusion hps
    · intro _
      rfl
    · intro sn fields hrec
      obtain ⟨h1, -⟩ := List.cons.inj hrec
      obtain ⟨hsn, hf⟩ := Prod.ext_iff.mp h1
      subst hf
      exact ⟨hsn.symm, injectMeta_has_serial _ _ _, injectMeta_has_timestamp _ _ _⟩
  · obtain ⟨p, rfl⟩ := hp v hcase
    have hM : MessageHandler codec topic now (some data0) payload =
        { panicked := false
          jsonRecords :=
            [(getSnFromTopic topic, injectMeta (getSnFromTopic topic) now p)]
          binaryEntries := [], binaryAttempted := false } := by
      simp only [MessageHandler, handleJsonObject, hcase]
    rw [hM]
    refine ⟨rfl, rfl, rfl, rfl, ?_, ?_, ?_⟩
    · intro p' hps
      injection hps with h2
      injection h2 with h3
      subst h3
      rfl
    · intro hnone
      exact Option.noConfusion hnone
    · intro sn fields hrec
      obtain ⟨h1, -⟩ := List.cons.inj hrec
      obtain ⟨hsn, hf⟩ := Prod.ext_iff.mp h1
      subst hf
      exact ⟨hsn.symm, injectMeta_has_serial _ _ _, injectMeta_has_timestamp _ _ _⟩

/-- A concrete codec for witnesses: only the frame [2, 65] parses, as a
command-1 header whose inner payload [9] decodes to a one-field heartbeat. -/
def testCodec : BinaryCodec where
  parseHeader l := if l = [2, 65] then some ⟨1, [9]⟩ else none
  parseHeartbeat p := if p = [9] then some [("x", .int 1)] else none
  parsePowerPack _ := none

/-- Witness for C4: the spec's example payload for device DEV1 — promoted
`params` mapping, injected serial and timestamp, one record, no binary
decode. -/
theorem messageHandler_json_path_witness :
    (MessageHandler testCodec "/app/device/property/DEV1" (.str "t")
        (some [("cmdId", .float "1"), ("cmdFunc", .float "2"),
               ("params", .obj [("x", .float "1")])]) []).jsonRecords =
      [("DEV1", [("x", .float "1"), ("serial_number", .str "DEV1"),
                 ("timestamp", .str "t")])] ∧
    (MessageHandler testCodec "/app/device/property/DEV1" (.str "t")
        (some [("cmdId", .float "1"), ("cmdFunc", .float "2"),
               ("params", .obj [("x", .float "1")])]) []).binaryAttempted = false := by
  have h := messageHandler_json_path testCodec "/app/device/property/DEV1"
    (.str "t")
    [("cmdId", .float "1"), ("cmdFunc", .float "2"),
     ("params", .obj [("x", .float "1")])] []
    (fun v hv => ⟨[("x", .float "1")], by
      simp [lookupField, List.find?_cons] at hv
      exact hv.symm⟩)
  refine ⟨?_, h.1⟩
  have h5 := h.2.2.2.2.1 [("x", .float "1")] (by rfl)
  rw [h5]
  rfl

/-- Claim C9: the handler is not total on valid JSON — a decoded object whose
`params` value is not itself an object drives the unguarded type assertion
into a panic: no record is delivered for that message (and the binary path is
not reached either). -/
theorem messageHandler_params_panic (codec : BinaryCodec) (topic : String)
    (now : GoValue) (data0 : List (String × GoValue)) (payload : List Nat)
    (v : GoValue) (hv : lookupField data0 "params" = some v)
    (hnot : ∀ p, v ≠ GoValue.obj p) :
    (MessageHandler codec topic now (some data0) payload).panicked = true ∧
    (MessageHandler codec topic now (some data0) payload).jsonRecords = [] ∧
    (MessageHandler codec topic now (some data0) payload).binaryEntries = [] := by
  have hM : handleJsonObject (getSnFromTopic topic) now data0 =
      { panicked := true, records := [] } := by
    unfold handleJsonObject
    rw [hv]
    cases v with
    | obj p => exact absurd rfl (hnot p)
    | str s => rfl
    | int n => rfl
    | float s => rfl
    | bool b => rfl
    | arr xs => rfl
  simp [MessageHandler, hM]

/-- Witness for C9 at the payload `{"params": 5}` (a JSON number decodes as
a float): the handler panics and delivers nothing. -/
theorem messageHandler_params_panic_witness :
    (MessageHandler testCodec "/app/device/property/DEV1" (.str "t")
        (some [("params", .float "5")]) []).panicked = true ∧
    (MessageHandler testCodec "/app/device/property/DEV1" (.str "t")
        (some [("params", .float "5")]) []).jsonRecords = [] := by
  have h := messageHandler_params_panic testCodec "/app/device/property/DEV1"
    (.str "t") [("params", .float "5")] [] (.float "5") (by rfl)
    (fun p hp => GoValue.noConfusion hp)
  exact ⟨h.1, h.2.1⟩

/-- Claim C5: for a non-JSON payload with two occurrences of the serial
marker (first at i1, next at i2 within the remainder), a first frame that
yields no records — malformed or unrecognized command — does not abort the
message: the handler still decodes the second frame, and the delivered
entries are exactly the second frame's; when the second frame parses with
command 1 that is one heartbeat record, and with command 32 it is one record
per power-stream sub-record. -/
theorem messageHandler_binary_isolation (codec : BinaryCodec) (topic : String)
    (now : GoValue) (payload : List Nat) (i1 i2 : Nat) (sn : String)
    (snB : List Nat) (hsn : sn = getSnFromTopic topic)
    (hsnB : snB = strBytes sn)
    (h1 : bytesIndex payload snB = (i1 : Int))
    (hlen : i1 + snB.length < payload.length)
    (h2 : bytesIndex (payload.drop (i1 + snB.length)) snB = (i2 : Int))
    (hbad : (DisplayPayload codec sn (goSlice payload 0 (i1 + snB.length))).1 = []) :
    (MessageHandler codec topic now none payload).binaryEntries =
      (DisplayPayload codec sn
        (goSlice payload (i1 + snB.length) (i1 + snB.length + i2 + snB.length))).1 ∧
    (∀ hm fields,
      codec.parseHeader
          (goSlice payload (i1 + snB.length) (i1 + snB.length + i2 + snB.length)) =
        some hm →
      hm.cmdId = 1 → codec.parseHeartbeat hm.pdata = some fields →
      (MessageHandler codec topic now none payload).binaryEntries =
        [⟨.heartbeat fields, sn⟩]) ∧
    (∀ hm subs,
      codec.parseHeader
          (goSlice payload (i1 + snB.length) (i1 + snB.length + i2 + snB.length)) =
        some hm →
      hm.cmdId = 32 → codec.parsePowerPack hm.pdata = some subs →
      (MessageHandler codec topic now none payload).binaryEntries.length =
        subs.length) := by
  subst hsn
  subst hsnB
  have hkey : (MessageHandler codec topic now none payload).binaryEntries =
      (DisplayPayload codec (getSnFromTopic topic)
        (goSlice payload (i1 + (strBytes (getSnFromTopic topic)).length)
          (i1 + (strBytes (getSnFromTopic topic)).length + i2 +
            (strBytes (getSnFromTopic topic)).length))).1 := by
    simp only [MessageHandler]
    unfold messageHandlerBinary
    simp only [h1]
    have hne : ((i1 : Int) ≠ -1) := by omega
    rw [if_pos hne]
    have hgt : ((payload.length : Int) >
        (i1 : Int) + ((strBytes (getSnFromTopic topic)).length : Int)) := by
      omega
    simp only [Int.toNat_natCast]
    rw [if_pos hgt, h2]
    have hne2 : ((i2 : Int) ≠ -1) := by omega
    rw [if_pos hne2]
    simp only [Int.toNat_natCast, hbad, List.nil_append]
  refine ⟨hkey, ?_, ?_⟩
  · intro hm fields hh hcmd hfield
    rw [hkey]
    unfold DisplayPayload
    rw [hh]
    simp [hcmd, hfield]
  · intro hm subs hh hcmd hpp
    rw [hkey]
    unfold DisplayPayload
    rw [hh]
    simp [hcmd, hpp]

/-- Witness for C5: payload [1,65,2,65] for serial "A" (marker byte 65)
splits into frame [1,65] — malformed under `testCodec`, zero records — and
frame [2,65], a command-1 frame yielding exactly one heartbeat record. -/
theorem messageHandler_binary_isolation_witness :
    (DisplayPayload testCodec "A" (goSlice [1, 65, 2, 65] 0 2)).1 = [] ∧
    (MessageHandler testCodec "/app/device/property/A" (.str "t") none
        [1, 65, 2, 65]).binaryEntries =
      [⟨.heartbeat [("x", .int 1)], "A"⟩] := by
  refine ⟨rfl, ?_⟩
  have h := messageHandler_binary_isolation testCodec "/app/device/property/A"
    (.str "t") [1, 65, 2, 65] 1 1 "A" [65] (by rfl) (by rfl) (by decide)
    (by decide) (by decide) (by rfl)
  exact h.2.1 ⟨1, [9]⟩ [("x", .int 1)] (by rfl) rfl (by rfl)

/-- Phase of one broker-message handling thread with respect to the
per-device stats map (protobuf.go lines 117-135): it reads the unlocked map
(`GetStatEntry`'s presence check), inserts a fresh zeroed entry when absent,
and then increments the entry's counter under that entry's own mutex. -/
inductive TPhase where
  | start
  | needInsert
  | haveEntry (addr : Nat)
  | done
deriving DecidableEq

/-- Shared state for the stats-map interleaving model: the map from serial
to the heap address of its counter record, the heap of counters (addresses
are indices, allocation appends), and each thread's phase. -/
structure StatsConfig where
  statsMap : List (String × Nat)
  heap : List Nat
  phases : List TPhase
deriving DecidableEq

/-- Go map lookup in the model (a Go map holds one binding per key; the
newest insert wins, so lookup takes the first match of the cons-list). -/
def alLookup (m : List (String × Nat)) (k : String) : Option Nat :=
  (m.find? fun kv => kv.1 == k).map fun kv => kv.2

/-- One scheduler step: the next atomic action of thread `t`.  The map read,
the map insert, and the mutex-guarded increment are three separate atomic
steps, because nothing synchronizes the map accesses of `GetStatEntry`
against each other; only the increment is under a (per-entry) lock. -/
def statsStep (sn : String) (c : StatsConfig) (t : Nat) : StatsConfig :=
  match c.phases.getD t .done with
  | .start =>
    (match alLookup c.statsMap sn with
     | some a => { c with phases := c.phases.set t (.haveEntry a) }
     | none => { c with phases := c.phases.set t .needInsert })
  | .needInsert =>
    let addr := c.heap.length
    { statsMap := (sn, addr) :: c.statsMap
      heap := c.heap ++ [0]
      phases := c.phases.set t (.haveEntry addr) }
  | .haveEntry a =>
    { c with
      heap := c.heap.set a (c.heap.getD a 0 + 1)
      phases := c.phases.set t .done }
  | .done => c

/-- Run a schedule (a list of thread ids) from a configuration. -/
def statsRun (sn : String) (init : StatsConfig) (sched : List Nat) : StatsConfig :=
  sched.foldl (statsStep sn) init

/-- N handler threads about to record a broker message for `sn`, before any
entry for `sn` exists. -/
def initialStats (n : Nat) : StatsConfig :=
  { statsMap := [], heap := [], phases := List.replicate n .start }

/-- The counter the stats map reports for `sn` (protobuf.go lines 51-57
reads it through the map). -/
def finalCounter (sn : String) (c : StatsConfig) : Option Nat :=
  (alLookup c.statsMap sn).map fun a => c.heap.getD a 0

def isDone : TPhase → Bool
  | .done => true
  | _ => false

/-- Every thread has finished its recording. -/
def allDone (c : StatsConfig) : Bool := c.phases.all isDone

/-- Claim C6 fails on the code: with N = 2 concurrent recordings on the same
serial, the interleaving read0 read1 insert0 insert1 inc0 inc1 completes
both threads yet the final counter of the device is 1, not 2 — the second
insert replaced the first thread's entry, whose increment is lost.  (On a
real Go runtime an unsynchronized concurrent map write may also fault
outright.) -/
theorem stats_lost_update :
    allDone (statsRun "DEV" (initialStats 2) [0, 1, 0, 1, 0, 1]) = true ∧
    finalCounter "DEV" (statsRun "DEV" (initialStats 2) [0, 1, 0, 1, 0, 1]) =
      some 1 ∧
    finalCounter "DEV" (statsRun "DEV" (initialStats 2) [0, 1, 0, 1, 0, 1]) ≠
      some 2 := by
  decide

def countDone (ps : List TPhase) : Nat := ps.countP isDone

theorem countP_set_add {l : List TPhase} {t : Nat} (h : t < l.length)
    (p : TPhase → Bool) (b d : TPhase) :
    (l.set t b).countP p + (if p (l.getD t d) then 1 else 0) =
      l.countP p + (if p b then 1 else 0) := by
  induction l generalizing t with
  | nil => simp at h
  | cons a rest ih =>
    cases t with
    | zero =>
      simp only [List.set_cons_zero, List.countP_cons, List.getD_cons_zero]
      omega
    | succ s =>
      simp only [List.set_cons_succ, List.countP_cons, List.getD_cons_succ]
      have := ih (t := s) (by simpa using h)
      omega

/-- Invariant for a run whose serial entry pre-exists at heap address 0:
the map never changes, the counter equals its initial value plus the number
of finished threads, and no thread ever needs an insert. -/
def EntryInv (sn : String) (c0 n : Nat) (c : StatsConfig) : Prop :=
  c.statsMap = [(sn, 0)] ∧
  c.phases.length = n ∧
  c.heap = [c0 + countDone c.phases] ∧
  ∀ p ∈ c.phases, p = .start ∨ p = .haveEntry 0 ∨ p = .done

theorem entryInv_step (sn : String) (c0 n : Nat) (c : StatsConfig) (t : Nat)
    (h : EntryInv sn c0 n c) : EntryInv sn c0 n (statsStep sn c t) := by
  obtain ⟨hm, hlen, hh, hp⟩ := h
  by_cases ht : t < c.phases.length
  · have hmem : c.phases.getD t .done ∈ c.phases := by
      rw [List.getD_eq_getElem c.phases .done ht]
      exact List.getElem_mem ..
    have hcnt := countP_set_add ht isDone
    rcases hp _ hmem with hcase | hcase | hcase
    · have hstep : statsStep sn c t =
          { c with phases := c.phases.set t (.haveEntry 0) } := by
        unfold statsStep
        rw [hcase, hm]
        simp [alLookup, List.find?_cons]
      rw [hstep]
      refine ⟨hm, by simp [hlen], ?_, ?_⟩
      · have h2 := hcnt (.haveEntry 0) .done
        rw [hcase] at h2
        simp only [isDone, if_false, Bool.false_eq_true] at h2
        simp only [countDone] at hh ⊢
        rw [hh]
        congr 1
        omega
      · intro p hpm
        rcases List.mem_or_eq_of_mem_set hpm with h2 | h2
        · exact hp _ h2
        · exact Or.inr (Or.inl h2)
    · have hstep : statsStep sn c t =
          { c with heap := c.heap.set 0 (c.heap.getD 0 0 + 1)
                   phases := c.phases.set t .done } := by
        unfold statsStep
        rw [hcase]
      rw [hstep]
      refine ⟨hm, by simp [hlen], ?_, ?_⟩
      · have h2 := hcnt .done .done
        rw [hcase] at h2
        simp only [isDone, if_true, Bool.false_eq_true, if_false] at h2
        simp only [countDone] at hh ⊢
        rw [hh]
        simp only [List.getD_cons_zero, List.set_cons_zero]
        congr 1
        omega
      · intro p hpm
        rcases List.mem_or_eq_of_mem_set hpm with h2 | h2
        · exact hp _ h2
        · exact Or.inr (Or.inr h2)
    · have hstep : statsStep sn c t = c := by
        unfold statsStep
        rw [hcase]
      rw [hstep]
      exact ⟨hm, hlen, hh, hp⟩
  · have hgd : c.phases.getD t .done = .done := by
      rw [List.getD_eq_getElem?_getD, List.getElem?_eq_none (by omega)]
      rfl
    have hstep : statsStep sn c t = c := by
      unfold statsStep
      rw [hgd]
    rw [hstep]
    exact ⟨hm, hlen, hh, hp⟩

theorem entryInv_run (sn : String) (c0 n : Nat) (init : StatsConfig)
    (sched : List Nat) (h : EntryInv sn c0 n init) :
    EntryInv sn c0 n (statsRun sn init sched) := by
  induction sched generalizing init with
  | nil => exact h
  | cons t rest ih => exact ih _ (entryInv_step sn c0 n init t h)

/-- Once the device's counter entry exists before the N handler threads
start, per-entry locked increments are correct: every complete schedule
leaves the counter at its initial value plus N.  It is only the
unsynchronized insert-if-absent path that loses updates (see the
lost-update interleaving). -/
theorem stats_correct_when_entry_exists (sn : String) (n c0 : Nat)
    (sched : List Nat)
    (hdone : allDone (statsRun sn
        { statsMap := [(sn, 0)], heap := [c0]
          phases := List.replicate n .start } sched) = true) :
    finalCounter sn (statsRun sn
        { statsMap := [(sn, 0)], heap := [c0]
          phases := List.replicate n .start } sched) = some (c0 + n) := by
  have hinv : EntryInv sn c0 n
      { statsMap := [(sn, 0)], heap := [c0]
        phases := List.replicate n .start } := by
    refine ⟨rfl, by simp, ?_, ?_⟩
    · have : countDone (List.replicate n TPhase.start) = 0 := by
        apply List.countP_eq_zero.mpr
        intro a ha
        rw [List.eq_of_mem_replicate ha]
        simp [isDone]
      simp [this]
    · intro p hpm
      rw [List.eq_of_mem_replicate hpm]
      exact Or.inl rfl
  obtain ⟨hm, hlen, hh, hp⟩ := entryInv_run sn c0 n _ sched hinv
  have hcount : countDone (statsRun sn
      { statsMap := [(sn, 0)], heap := [c0]
        phases := List.replicate n .start } sched).phases = n := by
    unfold countDone
    rw [List.countP_eq_length.mpr (fun a ha => List.all_eq_true.mp hdone a ha),
      hlen]
  unfold finalCounter
  rw [hm, hh, hcount]
  simp [alLookup, List.find?_cons]

/-- Witness for C2, the spec's round-trip example: parameters
permanentWatts=2000, accessKey AK, nonce 123456, timestamp
1700000000000000000, secret key "secret" — the canonical query string,
the recomputed signing base, and the concrete fixture signature. -/
theorem generateSign_verifiable_witness :
    generateQueryParams [("permanentWatts", .int 2000)] = "permanentWatts=2000" ∧
    (HttpRequest.generateSignParametersWith
        ⟨[("permanentWatts", .int 2000)], "AK", "secret"⟩
        "123456" "1700000000000000000").sign =
      encryptHmacSHA256
        (specSigningBase "AK"
          (generateQueryParams [("permanentWatts", .int 2000)])
          "123456" "1700000000000000000") "secret" ∧
    (HttpRequest.generateSignParametersWith
        ⟨[("permanentWatts", .int 2000)], "AK", "secret"⟩
        "123456" "1700000000000000000").sign =
      "b1b4ef37e285d3b7d714c4a377acd2a839ecd7b8aea457f29a54bca6a6ffddb0" := by
  have hq : generateQueryParams [("permanentWatts", .int 2000)] =
      "permanentWatts=2000" := by
    simp only [generateQueryParams, sortedPairs, topFlatten, List.flatMap_cons,
      List.flatMap_nil, List.append_nil, processValue, List.mergeSort_singleton]
    rfl
  have h := generateSign_verifiable
    ⟨[("permanentWatts", .int 2000)], "AK", "secret"⟩
    "123456" "1700000000000000000"
  refine ⟨hq, h.1, ?_⟩
  rw [h.1]
  simp only [HttpRequest.generateSignParametersWith]
  rw [hq]
  decide

/-- Witness for C10 at a concrete envelope and an arbitrary selector string:
the result equals the selector-"data" call, and the returned mapping is
exactly the one under the envelope's "data" key. -/
theorem getDeviceAllParameters_ignores_selector_witness :
    GetDeviceAllParameters
        (some [("code", .str "0"), ("data", .obj [("x", .int 1)])]) "ignored" =
      GetDeviceInfo
        (some [("code", .str "0"), ("data", .obj [("x", .int 1)])]) "data" ∧
    lookupField [("code", .str "0"), ("data", .obj [("x", .int 1)])] "data" =
      some (.obj [("x", .int 1)]) := by
  have h := getDeviceAllParameters_ignores_selector
    (some [("code", .str "0"), ("data", .obj [("x", .int 1)])]) "ignored"
  exact ⟨h.1, h.2 _ [("x", .int 1)] rfl (by rfl)⟩
